import Mathlib

/- Verification development for the httptools repository.

   The repository source under src/ holds only the packaging script setup.py.
   The parser core that the specification describes (the incremental HTTP/1.x
   message state machine and the standalone URL parser) is not part of src/,
   so those components are modelled from the specification text; every such
   definition carries a doc comment starting with the words used for that.
   The setup.py definitions are translated directly from src/setup.py. -/

/- ===================== Part 1: the setup.py embedding ===================== -/

/-- Decidable equality for Except results, used to evaluate the models on
concrete inputs. -/
instance {ε α : Type} [DecidableEq ε] [DecidableEq α] : DecidableEq (Except ε α) := fun x y =>
  match x, y with
  | Except.ok a, Except.ok b =>
    if h : a = b then Decidable.isTrue (by rw [h]) else Decidable.isFalse (by simp [h])
  | Except.error a, Except.error b =>
    if h : a = b then Decidable.isTrue (by rw [h]) else Decidable.isFalse (by simp [h])
  | Except.ok _, Except.error _ => Decidable.isFalse (by simp)
  | Except.error _, Except.ok _ => Decidable.isFalse (by simp)

/-- Python value as it flows through the cython-directives parsing loop of
setup.py: either a string or a boolean. -/
inductive PyVal
  | str (s : String)
  | bool (b : Bool)
deriving DecidableEq, Repr

/-- Python-level exceptions raised by the modelled setup.py code paths. -/
inductive PyError
  | runtimeError (msg : String)
  | attributeError
deriving DecidableEq, Repr

/-- Lower-case conversion of one character, the ASCII case of Python
str.lower (all strings handled by setup.py options are ASCII). -/
def pyCharLower (c : Char) : Char :=
  if 65 ≤ c.toNat ∧ c.toNat ≤ 90 then Char.ofNat (c.toNat + 32) else c

/-- Python str.lower restricted to ASCII, computed structurally on the
character list so that concrete instances evaluate. -/
def pyStrLower (s : String) : String := String.mk (s.data.map pyCharLower)

/-- Python attribute call v.lower(): succeeds on a str, raises AttributeError
on a bool (bool objects have no attribute lower). -/
def pyLower : PyVal → Except PyError String
  | PyVal.str s => Except.ok (pyStrLower s)
  | PyVal.bool _ => Except.error PyError.attributeError

/-- Python str.split for a one-character separator, on character lists:
splitting the empty string gives one empty part, as in Python. -/
def splitChars (sep : Char) : List Char → List (List Char)
  | [] => [[]]
  | c :: rest =>
    let r := splitChars sep rest
    if c = sep then [] :: r
    else
      match r with
      | g :: gs => (c :: g) :: gs
      | [] => [[c]]

/-- Joining of character-list parts with a separator, the inverse direction
of splitChars. -/
def joinChars (sep : Char) : List (List Char) → List Char
  | [] => []
  | [g] => g
  | g :: gs => g ++ sep :: joinChars sep gs

/-- Python str.partition for a one-character separator: the parts before and
after the first occurrence; when the separator is absent the whole string is
the first part, as in setup.py line 88. -/
def py_partition (sep : Char) (s : String) : String × String :=
  match splitChars sep s.data with
  | [] => (s, ("" : String))
  | k :: rest => (String.mk k, String.mk (joinChars sep rest))

/-- Python comparison of integer tuples: lexicographic, and a proper prefix is
smaller than any extension. This is the comparison in the guard
sys.version_info < (3, 5) of setup.py (lines 8-10). -/
def pyTupleLt : List Nat → List Nat → Bool
  | [], [] => false
  | [], _ :: _ => true
  | _ :: _, [] => false
  | a :: as2, b :: bs2 => if a < b then true else if b < a then false else pyTupleLt as2 bs2

/-- Marker for control reaching the setup() call of setup.py. -/
inductive SetupOutcome
  | setupInvoked
deriving DecidableEq, Repr

/-- Version guard of src/setup.py lines 8-10: raise RuntimeError when
sys.version_info < (3, 5); otherwise module execution continues towards the
setuptools setup() call. -/
def version_guard (vi : List Nat) : Except PyError SetupOutcome :=
  if pyTupleLt vi [3, 5] then
    Except.error (PyError.runtimeError ("httptools require Python 3.5 or greater"))
  else
    Except.ok SetupOutcome.setupInvoked

/-- Translation of setup.py lines 88-92 applied to one directive value v:
the first test replaces v by the boolean False when v.lower() == 'false';
the second test then calls v.lower() again on whatever v has become, which
raises AttributeError when v is now a boolean. -/
def directive_value (v : String) : Except PyError PyVal := do
  let v1 : PyVal := if pyStrLower v = ("false") then PyVal.bool false else PyVal.str v
  let lowered ← pyLower v1
  pure (if lowered = ("true") then PyVal.bool true else v1)

/-- Insert or overwrite a key in an association list, the effect of a Python
dict assignment directives[k] = v. -/
def dictInsert (k : String) (v : PyVal) : List (String × PyVal) → List (String × PyVal)
  | [] => [(k, v)]
  | (k2, v2) :: rest => if k2 = k then (k, v) :: rest else (k2, v2) :: dictInsert k v rest

/-- Loop of setup.py lines 86-94: split the cython-directives option on
commas, partition each directive at the first equals sign, convert the value
with directive_value, and store the result in the directives dict. -/
def parse_directives (s : String) : Except PyError (List (String × PyVal)) :=
  ((splitChars (',') s.data).map String.mk).foldlM
    (fun dict directive => do
      let kv := py_partition ('=') directive
      let v ← directive_value kv.2
      pure (dictInsert kv.1 v dict))
    []

/-- An extension module: only its source list matters to the modelled code. -/
structure ExtMod where
  sources : List String
deriving DecidableEq, Repr

/-- Environment of external effects consulted by finalize_options: the file
system (os.path.exists and os.path.getmtime), whether Cython can be imported
and its version string, and the cythonize transformation applied to the
extension list. -/
structure SetupEnv where
  fileExists : String → Bool
  getmtime : String → Nat
  cython_available : Bool
  cython_version : String
  cythonize : List ExtMod → List (String × PyVal) → Option Bool → List ExtMod

/-- Option state of the httptools_build_ext command object of setup.py
(lines 16-103). The field init_done models the attribute consulted through
getattr with default False in both option methods; it is absent, hence false,
before the first completed finalize_options call. -/
structure httptools_build_ext where
  init_done : Bool
  use_system_http_lib : Bool  -- the use-system-http-parser boolean option

  cython_always : Bool
  cython_annotate : Option Bool
  cython_directives : Option String
  ext_modules : List ExtMod
deriving DecidableEq, Repr

/-- Translation of httptools_build_ext.initialize_options (setup.py lines
34-45): when the guarding attribute is already set it returns without
touching anything; otherwise it resets the four option attributes to their
defaults. The base-class fields touched by the super() call are outside the
modelled state. -/
def init_options (c : httptools_build_ext) : httptools_build_ext :=
  if c.init_done then c
  else { c with use_system_http_lib := false, cython_always := false,
                cython_annotate := none, cython_directives := none }

/-- Body of the per-source loop of finalize_options (setup.py lines 58-70): a
.pyx source whose generated .c file exists is swapped for the .c file unless
cython-always is set; any other .pyx source forces cythonization. Returns the
possibly replaced source together with whether this source forces
need_cythonize. The cfiles dictionary built there is dead code: setup.py
never reads it, so it is not part of the model. -/
def pyx_source_step (env : SetupEnv) (cython_always : Bool) (sfile : String) : String × Bool :=
  if sfile.endsWith (".pyx") then
    let cfile := sfile.dropRight 4 ++ (".c")
    if env.fileExists cfile && !cython_always then (cfile, false)
    else (sfile, true)
  else (sfile, false)

/-- Translation of httptools_build_ext.finalize_options (setup.py lines
47-103): early return when the guarding attribute is set; otherwise the
.pyx/.c source rewriting, the Cython availability and version checks, the
cython-directives parsing loop (skipped for a falsy value, that is None or
the empty string), the cythonize call, and finally setting the attribute. -/
def finalize_options (env : SetupEnv) (c : httptools_build_ext) :
    Except PyError httptools_build_ext :=
  if c.init_done then Except.ok c
  else
    let mapped := c.ext_modules.map (fun em =>
      let rs := em.sources.map (pyx_source_step env c.cython_always)
      (ExtMod.mk (rs.map Prod.fst), rs.any Prod.snd))
    let need_cythonize := c.cython_always || mapped.any Prod.snd
    let ext2 := mapped.map Prod.fst
    if need_cythonize then
      if !env.cython_available then
        Except.error (PyError.runtimeError ("please install Cython to compile httptools from source"))
      else if env.cython_version < ("0.28") then
        Except.error (PyError.runtimeError ("httptools requires Cython version 0.28 or greater"))
      else do
        let directives ← match c.cython_directives with
          | some s => if s = ("") then pure [] else parse_directives s
          | none => pure []
        Except.ok { c with
          ext_modules := env.cythonize ext2 directives c.cython_annotate,
          init_done := true }
    else
      Except.ok { c with ext_modules := ext2, init_done := true }

/- Helper characterizations of the Python tuple comparison. -/

lemma pyTupleLt_nil (l : List Nat) : pyTupleLt l [] = false := by
  cases l <;> simp [pyTupleLt]

lemma pyTupleLt_35 (a b : Nat) (rest : List Nat) :
    pyTupleLt (a :: b :: rest) [3, 5] = (decide (a < 3) || (decide (a = 3) && decide (b < 5))) := by
  simp only [pyTupleLt]
  rcases Nat.lt_trichotomy a 3 with h | h | h
  · simp [h, Nat.lt_asymm h, Nat.ne_of_lt h]
  · subst h
    rcases Nat.lt_trichotomy b 5 with h2 | h2 | h2
    · simp [h2]
    · subst h2
      simp [pyTupleLt_nil]
    · simp [h2, Nat.lt_asymm h2, Nat.lt_irrefl, (Nat.ne_of_lt h2).symm]
  · simp [h, Nat.lt_asymm h, (Nat.ne_of_lt h).symm]

/-- C8: running setup.py under an interpreter whose sys.version_info is below
(3, 5) raises RuntimeError before the setup() call is reached, and for every
interpreter version at least (3, 5) the guard passes unchanged. -/
theorem c8_version_guard (major minor : Nat) (rest : List Nat) :
    ((major < 3 ∨ (major = 3 ∧ minor < 5)) →
        version_guard (major :: minor :: rest) =
          Except.error (PyError.runtimeError ("httptools require Python 3.5 or greater"))) ∧
    ((3 < major ∨ (major = 3 ∧ 5 ≤ minor)) →
        version_guard (major :: minor :: rest) = Except.ok SetupOutcome.setupInvoked) := by
  constructor <;> intro h
  · have hlt : pyTupleLt (major :: minor :: rest) [3, 5] = true := by
      rw [pyTupleLt_35]
      rcases h with h | ⟨h1, h2⟩
      · simp [h]
      · simp [h1, h2]
    simp [version_guard, hlt]
  · have hlt : pyTupleLt (major :: minor :: rest) [3, 5] = false := by
      rw [pyTupleLt_35]
      rcases h with h | ⟨h1, h2⟩
      · simp [Nat.lt_asymm h, (Nat.ne_of_lt h).symm]
      · simp [h1]
        omega
    simp [version_guard, hlt]

/-- Witness for C8 at the concrete versions (3, 4, 0) and (3, 13, 0). -/
theorem c8_version_guard_witness :
    version_guard [3, 4, 0] =
        Except.error (PyError.runtimeError ("httptools require Python 3.5 or greater")) ∧
    version_guard [3, 13, 0] = Except.ok SetupOutcome.setupInvoked :=
  ⟨(c8_version_guard 3 4 [0]).1 (Or.inr ⟨rfl, by decide⟩),
   (c8_version_guard 3 13 [0]).2 (Or.inr ⟨rfl, by decide⟩)⟩

/-- C9: once finalize_options has completed and set its guarding attribute,
every further call of initialize_options or finalize_options on the same
command object returns immediately and leaves the whole option state,
including the extension source lists, unchanged. -/
theorem c9_options_idempotent (env : SetupEnv) (c : httptools_build_ext)
    (h : c.init_done = true) :
    init_options c = c ∧ finalize_options env c = Except.ok c := by
  constructor <;> simp [init_options, finalize_options, h]

/-- Witness for C9 at a concrete command object with the attribute set. -/
theorem c9_options_idempotent_witness :
    init_options (httptools_build_ext.mk true false false none none []) =
        httptools_build_ext.mk true false false none none [] ∧
    finalize_options
        (SetupEnv.mk (fun _ => false) (fun _ => 0) false ("0.29") (fun e _ _ => e))
        (httptools_build_ext.mk true false false none none []) =
      Except.ok (httptools_build_ext.mk true false false none none []) :=
  c9_options_idempotent
    (SetupEnv.mk (fun _ => false) (fun _ => 0) false ("0.29") (fun e _ _ => e))
    (httptools_build_ext.mk true false false none none []) rfl

/-- C10: in the cython-directives loop, any directive value equal to the word
false case-insensitively raises an uncaught AttributeError, because the value
has been replaced by the boolean False and .lower() is called on it again;
the value true and every other string are parsed without error. -/
theorem c10_directive_false_attribute_error :
    (∀ v : String, pyStrLower v = ("false") →
        directive_value v = Except.error PyError.attributeError) ∧
    parse_directives ("boundscheck=false") = Except.error PyError.attributeError ∧
    (∀ v : String, pyStrLower v ≠ ("false") →
        directive_value v =
          Except.ok (if pyStrLower v = ("true") then PyVal.bool true else PyVal.str v)) := by
  refine ⟨?_, ?_, ?_⟩
  · intro v h
    simp [directive_value, h, pyLower, Bind.bind, Except.bind]
  · decide
  · intro v h
    simp [directive_value, h, pyLower, Bind.bind, Except.bind, Pure.pure, Except.pure]

/-- Witness for C10 at the concrete values FALSE and true. -/
theorem c10_directive_false_attribute_error_witness :
    directive_value ("FALSE") = Except.error PyError.attributeError ∧
    directive_value ("true") = Except.ok (PyVal.bool true) := by
  refine ⟨c10_directive_false_attribute_error.1 ("FALSE") (by decide), ?_⟩
  have h := c10_directive_false_attribute_error.2.2 ("true") (by decide)
  exact h.trans (by decide)

/- ================= Part 2: the URL structural parser model ================= -/

/-- Modelled from the spec: the error taxonomy of section 7 of the
specification; the parser core that defines these kinds is not in src/. -/
inductive ParseError
  | invalidStartLine
  | invalidVersion
  | invalidHeaderField
  | invalidContentLength
  | conflictingBodyHeaders
  | invalidChunkSize
  | lineTooLong
  | headerTooLarge
  | invalidPort
  | callbackAborted
  | pausedError
deriving DecidableEq, Repr

/-- Byte values of a string, the working representation of all parser input. -/
def strBytes (s : String) : List Nat := s.data.map Char.toNat

/-- Decimal digit test on a byte value. -/
def isDigitB (b : Nat) : Bool := 48 ≤ b && b ≤ 57

/-- Decimal value of a digit byte list. -/
def digitsVal (l : List Nat) : Nat := l.foldl (fun a b => a * 10 + (b - 48)) 0

/-- Split a byte list at the first occurrence of a separator byte: the part
before it, and the part after it when the separator occurs at all. -/
def splitFirst (sep : Nat) : List Nat → List Nat × Option (List Nat)
  | [] => ([], none)
  | b :: rest =>
    if b = sep then ([], some rest)
    else
      let r := splitFirst sep rest
      (b :: r.1, r.2)

/-- Modelled from the spec: validation of the URL port section (section 4.4),
absent from src/: the port must be numeric and within 1 to 65535, anything
else is InvalidPort. -/
def parsePort (l : List Nat) : Except ParseError Nat :=
  if l.isEmpty || !(l.all isDigitB) then Except.error ParseError.invalidPort
  else if 1 ≤ digitsVal l && digitsVal l ≤ 65535 then Except.ok (digitsVal l)
  else Except.error ParseError.invalidPort

/-- Modelled from the spec: the userinfo section up to the last at-sign of the
authority is discarded by the URL parser, which is absent from src/. -/
def afterLastAt (l : List Nat) : List Nat :=
  match splitFirst 64 l.reverse with
  | (pre2, some _) => pre2.reverse
  | (_, none) => l

/-- Modelled from the spec: decomposition of the authority section of a URL
(absent from src/) into host and optional validated port; a bracketed IPv6
literal keeps the bytes between the brackets as the host. -/
def parseAuthority (l : List Nat) : Except ParseError (List Nat × Option Nat) :=
  let hostport := afterLastAt l
  if hostport.head? = some 91 then
    let sp := splitFirst 93 hostport.tail
    match sp.2 with
    | some tail2 =>
      if tail2.isEmpty then Except.ok (sp.1, none)
      else if tail2.head? = some 58 then do
        let n ← parsePort tail2.tail
        Except.ok (sp.1, some n)
      else Except.error ParseError.invalidPort
    | none => Except.error ParseError.invalidPort
  else
    let sp := splitFirst 58 hostport
    match sp.2 with
    | none => Except.ok (sp.1, none)
    | some ps => do
        let n ← parsePort ps
        Except.ok (sp.1, some n)

/-- Scheme characters: letters, digits, plus, minus and dot. -/
def isSchemeByte (b : Nat) : Bool :=
  (97 ≤ b && b ≤ 122) || (65 ≤ b && b ≤ 90) || isDigitB b || b == 43 || b == 45 || b == 46

/-- Modelled from the spec: search for the optional scheme separator at the
start of a URL (absent from src/), returning the scheme bytes and the
remainder after the colon-slash-slash separator. -/
def findSchemeSep : List Nat → Option (List Nat × List Nat)
  | 58 :: 47 :: 47 :: rest => some ([], rest)
  | b :: rest =>
    match findSchemeSep rest with
    | some (s, r) => some (b :: s, r)
    | none => none
  | [] => none

/-- Modelled from the spec: split the part of the URL after the authority at
the first question mark and hash into path, query and fragment (section 4.4);
the URL parser is absent from src/. -/
def splitPathQF (l : List Nat) : List Nat × List Nat × List Nat :=
  let hs := splitFirst 35 l
  let qs := splitFirst 63 hs.1
  (qs.1, (qs.2.getD [], hs.2.getD []))

/-- Modelled from the spec: the six structural URL components produced by
parse_url (copying variant: each component is its own byte list). -/
structure UrlComponents where
  scheme : List Nat
  host : List Nat
  port : Option Nat
  path : List Nat
  query : List Nat
  fragment : List Nat
deriving DecidableEq, Repr

/-- Modelled from the spec: the standalone URL structural parser of section
4.4, absent from src/ (the repository holds only the packaging script). It
scans an optional scheme, discards userinfo, splits host and validated port,
then path, query and fragment; a target starting with a slash has no scheme
or authority, and a connect-style host-port target with no scheme is the
authority-only case. -/
def parse_url (l : List Nat) : Except ParseError UrlComponents :=
  if l.head? = some 47 then
    let pqf := splitPathQF l
    Except.ok (UrlComponents.mk [] [] none pqf.1 pqf.2.1 pqf.2.2)
  else
    let sr :=
      match findSchemeSep l with
      | some (s, r) => if !s.isEmpty && s.all isSchemeByte then (s, r) else (([] : List Nat), l)
      | none => (([] : List Nat), l)
    let auth := sr.2.takeWhile (fun b => !(b == 47 || b == 63 || b == 35))
    let tail2 := sr.2.dropWhile (fun b => !(b == 47 || b == 63 || b == 35))
    match parseAuthority auth with
    | Except.error e => Except.error e
    | Except.ok hp =>
      let pqf := splitPathQF tail2
      Except.ok (UrlComponents.mk sr.1 hp.1 hp.2 pqf.1 pqf.2.1 pqf.2.2)

/- ============ Part 3: callback events and on_body coalescing ============ -/

/-- Modelled from the spec: the callback events of section 4.2, in the order
the Callback Sink receives them; payload-carrying events carry the bytes
handed to the callback. The parser core emitting them is absent from src/. -/
inductive Event
  | messageBegin
  | method (m : List Nat)
  | url (u : List Nat)
  | status (s : List Nat)
  | header (name value : List Nat)
  | headersComplete
  | body (data : List Nat)
  | chunkHeader (size : Nat)
  | chunkComplete
  | messageComplete
deriving DecidableEq, Repr

/-- Body-event test. -/
def isBodyEvent : Event → Bool
  | Event.body _ => true
  | _ => false

/-- Prepend a body payload to an event list, merging with a body event
already at the head. -/
def consBody (pl : List Nat) : List Event → List Event
  | Event.body q :: es => Event.body (pl ++ q) :: es
  | es => Event.body pl :: es

/-- Coalesce adjacent on_body events, concatenating their payloads: the spec
delivers each contiguous run of body bytes of one feed call as a single
on_body invocation, so one feed call never emits two adjacent body events. -/
def mergeBodies : List Event → List Event
  | [] => []
  | Event.body pl :: rest => consBody pl (mergeBodies rest)
  | e :: rest => e :: mergeBodies rest

lemma mergeBodies_cons_body (pl : List Nat) (rest : List Event) :
    mergeBodies (Event.body pl :: rest) = consBody pl (mergeBodies rest) := rfl

lemma mergeBodies_cons_of_not_body (e : Event) (rest : List Event)
    (h : isBodyEvent e = false) :
    mergeBodies (e :: rest) = e :: mergeBodies rest := by
  cases e <;> simp [isBodyEvent] at h ⊢ <;> rfl

lemma consBody_body_cons (pl q : List Nat) (es : List Event) :
    consBody pl (Event.body q :: es) = Event.body (pl ++ q) :: es := rfl

lemma consBody_consBody (pl q : List Nat) (l : List Event) :
    consBody pl (consBody q l) = consBody (pl ++ q) l := by
  cases l with
  | nil => simp [consBody]
  | cons e es => cases e <;> simp [consBody, List.append_assoc]

lemma mergeBodies_consBody_append (pl : List Nat) (l ys : List Event) :
    mergeBodies (consBody pl l ++ ys) = consBody pl (mergeBodies (l ++ ys)) := by
  cases l with
  | nil => rfl
  | cons e es =>
    cases e <;> try rfl
    rename_i q
    simp only [consBody_body_cons, List.cons_append, mergeBodies_cons_body, consBody_consBody]

lemma mergeBodies_merge_left (xs ys : List Event) :
    mergeBodies (mergeBodies xs ++ ys) = mergeBodies (xs ++ ys) := by
  induction xs generalizing ys with
  | nil => simp [mergeBodies]
  | cons e es ih =>
    cases e with
    | body pl =>
      rw [List.cons_append, mergeBodies_cons_body, mergeBodies_cons_body,
        mergeBodies_consBody_append, ih]
    | _ =>
      rw [List.cons_append, mergeBodies_cons_of_not_body _ _ (by simp [isBodyEvent]),
        mergeBodies_cons_of_not_body _ _ (by simp [isBodyEvent]), List.cons_append,
        mergeBodies_cons_of_not_body _ _ (by simp [isBodyEvent]), ih]

lemma mergeBodies_idem (xs : List Event) : mergeBodies (mergeBodies xs) = mergeBodies xs := by
  have h := mergeBodies_merge_left xs []
  simpa using h

lemma mergeBodies_merge_right (xs ys : List Event) :
    mergeBodies (xs ++ mergeBodies ys) = mergeBodies (xs ++ ys) := by
  induction xs with
  | nil => simpa using mergeBodies_idem ys
  | cons e es ih =>
    cases e with
    | body pl =>
      rw [List.cons_append, mergeBodies_cons_body, List.cons_append,
        mergeBodies_cons_body, ih]
    | _ =>
      rw [List.cons_append, mergeBodies_cons_of_not_body _ _ (by simp [isBodyEvent]),
        List.cons_append, mergeBodies_cons_of_not_body _ _ (by simp [isBodyEvent]), ih]

lemma mergeBodies_merge_both (xs ys : List Event) :
    mergeBodies (mergeBodies xs ++ mergeBodies ys) = mergeBodies (xs ++ ys) := by
  rw [mergeBodies_merge_left, mergeBodies_merge_right]

/- ============== Part 4: the message state machine model ============== -/

/-- Modelled from the spec: the parser kind fixed at construction (section 3);
the parser core is absent from src/. -/
inductive ParserKind
  | request
  | response
deriving DecidableEq, Repr

/-- Modelled from the spec: the position in the message grammar (section 3).
The Trailer state of the spec is represented as the header states with the
trailing flag set, since the spec parses trailers identically to headers; the
transient HeadersComplete and MessageComplete states are represented by their
outgoing transitions (pipelining returns directly to the start line); the
states expecting the line feed of a CRLF pair inside the chunk machine are
split out so that exactly one byte is handled per transition. -/
inductive PState
  | startLine
  | headerField
  | headerValue
  | bodyContentLength
  | bodyIdentity
  | chunkSize
  | chunkExtension
  | chunkSizeLF
  | chunkData
  | chunkCRLF
  | chunkCRLFlf
  | errorState (e : ParseError)
deriving DecidableEq, Repr

/-- Modelled from the spec: the per-message metadata of section 3, together
with the bounded accumulation buffers for the in-progress token (start line,
header name, header value); the configurable size bound on those buffers is
not modelled since no claim concerns it. -/
structure MessageContext where
  http_major : Nat := 0
  http_minor : Nat := 0
  method : List Nat := []
  status_code : Nat := 0
  chunked : Bool := false
  content_length_present : Bool := false
  upgrade : Bool := false
  keep_alive : Bool := false
  trailing : Bool := false
  remaining : Nat := 0
  lineBuf : List Nat := []
  nameBuf : List Nat := []
  valueBuf : List Nat := []
deriving DecidableEq, Repr

/-- Modelled from the spec: the chunked-body sub-machine context of section 3:
the bytes remaining in the current chunk and whether a size digit has been
seen on the current chunk-size line. -/
structure ChunkContext where
  chunk_remaining : Nat := 0
  digit_seen : Bool := false
deriving DecidableEq, Repr

/-- Mutable part of a parser: grammar state plus the two contexts. -/
structure PCore where
  state : PState
  ctx : MessageContext
  chunk : ChunkContext
deriving DecidableEq, Repr

/-- Modelled from the spec: a parser instance (section 4.1); the kind and the
external knowledge that the parsed response answers a HEAD request are fixed
at construction, the paused flag is driven by pause and resume, and the core
holds the resumable machine state. -/
structure HttpParser where
  kind : ParserKind
  head_request : Bool
  paused : Bool
  core : PCore
deriving DecidableEq, Repr

/-- Core of a freshly constructed or just-completed parser. -/
def initCore : PCore := PCore.mk PState.startLine {} {}

/-- Modelled from the spec: construction (section 4.1) takes the kind; the
head_request flag is the embedder's indication for the HEAD body-suppression
rule of section 3. -/
def mkParser (k : ParserKind) (head2 : Bool) : HttpParser :=
  HttpParser.mk k head2 false initCore

/-- A fresh request parser. -/
def newRequest : HttpParser := mkParser ParserKind.request false

/-- Error-state test. -/
def isErrorState : PState → Bool
  | PState.errorState _ => true
  | _ => false

/-- The stored error of a state, when there is one. -/
def errOf : PState → Option ParseError
  | PState.errorState e => some e
  | _ => none

/-- Transition into the error state: the faulting byte is not consumed and no
event is emitted. -/
def failCore (c : PCore) (e : ParseError) : PCore × List Event :=
  (PCore.mk (PState.errorState e) c.ctx c.chunk, [])

/-- Lower-casing of byte values, for the case-insensitive header names. -/
def lowerBytes (l : List Nat) : List Nat :=
  l.map (fun b => if 65 ≤ b && b ≤ 90 then b + 32 else b)

/-- Split a byte list on a separator byte into parts. -/
def splitBytesOn (sep : Nat) : List Nat → List (List Nat)
  | [] => [[]]
  | b :: rest =>
    let r := splitBytesOn sep rest
    if b = sep then [] :: r
    else
      match r with
      | g :: gs => (b :: g) :: gs
      | [] => [[b]]

/-- Join byte-list parts with a separator byte. -/
def joinBytes (sep : Nat) : List (List Nat) → List Nat
  | [] => []
  | [g] => g
  | g :: gs => g ++ sep :: joinBytes sep gs

/-- Modelled from the spec: the version token HTTP/M.m of the start line
(section 4.1), with single-digit major and minor. -/
def parseVersionBytes (l : List Nat) : Option (Nat × Nat) :=
  match l with
  | [72, 84, 84, 80, 47, dM, 46, dm] =>
    if isDigitB dM && isDigitB dm then some (dM - 48, dm - 48) else none
  | _ => none

/-- Modelled from the spec: method validity for the request line; a method is
a nonempty run of upper-case letters (the spec rejects unknown or invalid
methods, modelled as token-shape validity). -/
def methodOk (m : List Nat) : Bool := !m.isEmpty && m.all (fun b => 65 ≤ b && b ≤ 90)

/-- Numeric header value, when the bytes are all decimal digits. -/
def natOfDigits (l : List Nat) : Option Nat :=
  if !l.isEmpty && l.all isDigitB then some (digitsVal l) else none

/-- Modelled from the spec: the keep-alive default per HTTP version of
section 4.1. -/
def defaultKeepAlive (maj mnr : Nat) : Bool := (1 < maj) || (maj == 1 && 1 ≤ mnr)

/-- Whitespace trim of a header value for its semantic interpretation. -/
def trimOWS (l : List Nat) : List Nat :=
  ((l.dropWhile (fun b => b == 32 || b == 9)).reverse.dropWhile
    (fun b => b == 32 || b == 9)).reverse

/-- Modelled from the spec: completion of the start line (section 4.1): a
request line METHOD SP TARGET SP HTTP/M.m emits on_message_begin, on_method
and on_url; a status line HTTP/M.m SP STATUS SP REASON with a three-digit
status emits on_message_begin and on_status. Malformed version tokens are
InvalidVersion, every other malformation InvalidStartLine. -/
def handleStartLine (p : HttpParser) (line : List Nat) : PCore × List Event :=
  let c := PCore.mk p.core.state { p.core.ctx with lineBuf := [] } p.core.chunk
  match p.kind with
  | ParserKind.request =>
    match splitBytesOn 32 line with
    | [m, target, ver] =>
      if !(methodOk m) || target.isEmpty then failCore c ParseError.invalidStartLine
      else
        match parseVersionBytes ver with
        | none => failCore c ParseError.invalidVersion
        | some mm =>
          (PCore.mk PState.headerField
            { c.ctx with http_major := mm.1, http_minor := mm.2, method := m,
                         keep_alive := defaultKeepAlive mm.1 mm.2, nameBuf := [] }
            c.chunk,
           [Event.messageBegin, Event.method m, Event.url target])
    | _ => failCore c ParseError.invalidStartLine
  | ParserKind.response =>
    match splitBytesOn 32 line with
    | ver :: st :: reasonParts =>
      if reasonParts.isEmpty then failCore c ParseError.invalidStartLine
      else
        match parseVersionBytes ver with
        | none => failCore c ParseError.invalidVersion
        | some mm =>
          if st.length == 3 && st.all isDigitB then
            (PCore.mk PState.headerField
              { c.ctx with http_major := mm.1, http_minor := mm.2,
                           status_code := digitsVal st,
                           keep_alive := defaultKeepAlive mm.1 mm.2, nameBuf := [] }
              c.chunk,
             [Event.messageBegin, Event.status (joinBytes 32 reasonParts)])
          else failCore c ParseError.invalidStartLine
    | _ => failCore c ParseError.invalidStartLine

/-- Modelled from the spec: recognition of one completed header field and
value pair (section 4.1): on_header is emitted and Content-Length,
Transfer-Encoding chunked, Connection and Upgrade are interpreted. A
Content-Length while chunked is already set, or a chunked Transfer-Encoding
while a Content-Length is present, is ConflictingBodyHeaders; a
non-numeric Content-Length value, or a second Content-Length with a different
value, is InvalidContentLength. -/
def applyHeader (p : HttpParser) (name value : List Nat) : PCore × List Event :=
  let c0 := p.core
  let lname := lowerBytes name
  let sval := trimOWS value
  let c := PCore.mk PState.headerField { c0.ctx with nameBuf := [], valueBuf := [] } c0.chunk
  let ev := [Event.header name value]
  if lname = strBytes ("content-length") then
    if c0.ctx.chunked then failCore c0 ParseError.conflictingBodyHeaders
    else
      match natOfDigits sval with
      | none => failCore c0 ParseError.invalidContentLength
      | some n =>
        if c0.ctx.content_length_present && !(c0.ctx.remaining == n) then
          failCore c0 ParseError.invalidContentLength
        else
          (PCore.mk c.state { c.ctx with content_length_present := true, remaining := n }
            c.chunk, ev)
  else if lname = strBytes ("transfer-encoding") then
    if lowerBytes sval = strBytes ("chunked") then
      if c0.ctx.content_length_present then failCore c0 ParseError.conflictingBodyHeaders
      else (PCore.mk c.state { c.ctx with chunked := true } c.chunk, ev)
    else (c, ev)
  else if lname = strBytes ("connection") then
    let lv := lowerBytes sval
    if lv = strBytes ("close") then
      (PCore.mk c.state { c.ctx with keep_alive := false } c.chunk, ev)
    else if lv = strBytes ("keep-alive") then
      (PCore.mk c.state { c.ctx with keep_alive := true } c.chunk, ev)
    else if lv = strBytes ("upgrade") then
      (PCore.mk c.state { c.ctx with upgrade := true } c.chunk, ev)
    else (c, ev)
  else if lname = strBytes ("upgrade") then
    (PCore.mk c.state { c.ctx with upgrade := true } c.chunk, ev)
  else (c, ev)

/-- Modelled from the spec: the body-suppression rule of section 3: responses
to HEAD requests and responses with status 1xx, 204 or 304 have no body
regardless of headers; whether a request has a body is decided by headers. -/
def message_has_body (p : HttpParser) : Bool :=
  match p.kind with
  | ParserKind.request => true
  | ParserKind.response =>
    !(p.head_request || (100 ≤ p.core.ctx.status_code && p.core.ctx.status_code ≤ 199)
      || p.core.ctx.status_code == 204 || p.core.ctx.status_code == 304)

/-- Modelled from the spec: the transition at the blank line ending headers or
trailers (section 4.1): in trailers the bare CRLF completes the message;
otherwise on_headers_complete is emitted and the body-delimiting decision is
taken: an upgrade or a bodiless message completes immediately (returning to
the start line for pipelining), chunked enters the chunk-size line, a
positive Content-Length enters the counted body, a zero length or a request
with no body framing completes, and a response with no framing reads until
close. -/
def headersDone (p : HttpParser) : PCore × List Event :=
  let c := PCore.mk p.core.state { p.core.ctx with nameBuf := [] } p.core.chunk
  if c.ctx.trailing then (initCore, [Event.messageComplete])
  else if c.ctx.upgrade then (initCore, [Event.headersComplete, Event.messageComplete])
  else if !(message_has_body p) then
    (initCore, [Event.headersComplete, Event.messageComplete])
  else if c.ctx.chunked then
    (PCore.mk PState.chunkSize c.ctx {}, [Event.headersComplete])
  else if c.ctx.content_length_present then
    if c.ctx.remaining = 0 then (initCore, [Event.headersComplete, Event.messageComplete])
    else (PCore.mk PState.bodyContentLength c.ctx c.chunk, [Event.headersComplete])
  else
    match p.kind with
    | ParserKind.request => (initCore, [Event.headersComplete, Event.messageComplete])
    | ParserKind.response => (PCore.mk PState.bodyIdentity c.ctx c.chunk, [Event.headersComplete])

/-- Hexadecimal digit test on a byte value. -/
def isHexB (b : Nat) : Bool := isDigitB b || (65 ≤ b && b ≤ 70) || (97 ≤ b && b ≤ 102)

/-- Value of a hexadecimal digit byte. -/
def hexVal (b : Nat) : Nat :=
  if isDigitB b then b - 48 else if 65 ≤ b && b ≤ 70 then b - 55 else b - 87

/-- Modelled from the spec: the byte-level transition of the message state
machine (section 4.1) and of the chunked-body sub-machine (section 4.3); the
parser core the spec describes is not part of src/, which holds only the
packaging script. Exactly one byte is processed per step; a step that detects
an error moves to the error state without consuming the faulting byte, and in
the error state nothing is consumed and nothing is emitted. Line endings are
recognized by accumulating the carriage return into the current token buffer
and acting at the following line feed. -/
def step (p : HttpParser) (b : Nat) : PCore × List Event :=
  let c := p.core
  match c.state with
  | PState.errorState _ => (c, [])
  | PState.startLine =>
    match c.ctx.lineBuf.getLast? with
    | some 13 =>
      if b = 10 then handleStartLine p c.ctx.lineBuf.dropLast
      else failCore c ParseError.invalidStartLine
    | _ =>
      if b = 10 then failCore c ParseError.invalidStartLine
      else (PCore.mk c.state { c.ctx with lineBuf := c.ctx.lineBuf ++ [b] } c.chunk, [])
  | PState.headerField =>
    match c.ctx.nameBuf.getLast? with
    | some 13 =>
      if b = 10 then
        if c.ctx.nameBuf = [13] then headersDone p
        else failCore c ParseError.invalidHeaderField
      else failCore c ParseError.invalidHeaderField
    | _ =>
      if b = 58 then
        if c.ctx.nameBuf.isEmpty then failCore c ParseError.invalidHeaderField
        else (PCore.mk PState.headerValue { c.ctx with valueBuf := [] } c.chunk, [])
      else if b = 10 then failCore c ParseError.invalidHeaderField
      else if c.ctx.nameBuf.isEmpty && (b == 32 || b == 9) then
        failCore c ParseError.invalidHeaderField
      else (PCore.mk c.state { c.ctx with nameBuf := c.ctx.nameBuf ++ [b] } c.chunk, [])
  | PState.headerValue =>
    match c.ctx.valueBuf.getLast? with
    | some 13 =>
      if b = 10 then applyHeader p c.ctx.nameBuf c.ctx.valueBuf.dropLast
      else failCore c ParseError.invalidHeaderField
    | _ =>
      if b = 10 then failCore c ParseError.invalidHeaderField
      else if c.ctx.valueBuf.isEmpty && (b == 32 || b == 9) then (c, [])
      else (PCore.mk c.state { c.ctx with valueBuf := c.ctx.valueBuf ++ [b] } c.chunk, [])
  | PState.bodyContentLength =>
    if c.ctx.remaining ≤ 1 then (initCore, [Event.body [b], Event.messageComplete])
    else (PCore.mk c.state { c.ctx with remaining := c.ctx.remaining - 1 } c.chunk,
          [Event.body [b]])
  | PState.bodyIdentity => (c, [Event.body [b]])
  | PState.chunkSize =>
    if isHexB b then
      (PCore.mk c.state c.ctx
        (ChunkContext.mk (16 * c.chunk.chunk_remaining + hexVal b) true), [])
    else if b = 59 then
      if c.chunk.digit_seen then (PCore.mk PState.chunkExtension c.ctx c.chunk, [])
      else failCore c ParseError.invalidChunkSize
    else if b = 13 then
      if c.chunk.digit_seen then (PCore.mk PState.chunkSizeLF c.ctx c.chunk, [])
      else failCore c ParseError.invalidChunkSize
    else failCore c ParseError.invalidChunkSize
  | PState.chunkExtension =>
    if b = 13 then (PCore.mk PState.chunkSizeLF c.ctx c.chunk, [])
    else if b = 10 then failCore c ParseError.invalidChunkSize
    else (c, [])
  | PState.chunkSizeLF =>
    if b = 10 then
      if c.chunk.chunk_remaining = 0 then
        (PCore.mk PState.headerField { c.ctx with trailing := true, nameBuf := [] } {},
         [Event.chunkHeader 0])
      else (PCore.mk PState.chunkData c.ctx c.chunk,
            [Event.chunkHeader c.chunk.chunk_remaining])
    else failCore c ParseError.invalidChunkSize
  | PState.chunkData =>
    if c.chunk.chunk_remaining ≤ 1 then
      (PCore.mk PState.chunkCRLF c.ctx (ChunkContext.mk 0 c.chunk.digit_seen),
       [Event.body [b]])
    else (PCore.mk c.state c.ctx
            (ChunkContext.mk (c.chunk.chunk_remaining - 1) c.chunk.digit_seen),
          [Event.body [b]])
  | PState.chunkCRLF =>
    if b = 13 then (PCore.mk PState.chunkCRLFlf c.ctx c.chunk, [])
    else failCore c ParseError.invalidChunkSize
  | PState.chunkCRLFlf =>
    if b = 10 then (PCore.mk PState.chunkSize c.ctx {}, [Event.chunkComplete])
    else failCore c ParseError.invalidChunkSize

/-- Result of running the machine over a byte list: final parser, raw events
in order, and the count of consumed bytes. -/
structure RunOut where
  fin : HttpParser
  events : List Event
  count : Nat
deriving DecidableEq, Repr

/-- Byte-by-byte run of the machine: each non-error transition consumes its
byte; a transition into or within the error state consumes nothing. -/
def runBytes (p : HttpParser) : List Nat → RunOut
  | [] => RunOut.mk p [] 0
  | b :: rest =>
    let s := step p b
    let r := runBytes (HttpParser.mk p.kind p.head_request p.paused s.1) rest
    RunOut.mk r.fin (s.2 ++ r.events) ((if isErrorState s.1.state then 0 else 1) + r.count)

/-- Result of one feed call. -/
structure FeedResult where
  fin : HttpParser
  count : Nat
  events : List Event
  err : Option ParseError
deriving DecidableEq, Repr

/-- Modelled from the spec: feed (section 4.1), the sole entry point: while
paused it fails with Paused consuming nothing; otherwise it runs the machine
over the bytes, reports the consumed count, the callback sequence (adjacent
body bytes of one call delivered as a single on_body, per section 4.1), and
the error stored in the final state when there is one. -/
def feed (p : HttpParser) (bs : List Nat) : FeedResult :=
  if p.paused then FeedResult.mk p 0 [] (some ParseError.pausedError)
  else
    let r := runBytes p bs
    FeedResult.mk r.fin r.count (mergeBodies r.events) (errOf r.fin.core.state)

/-- Modelled from the spec: reset (section 4.1) clears the message context
and returns to the start line. -/
def reset (p : HttpParser) : HttpParser := HttpParser.mk p.kind p.head_request false initCore

/-- Modelled from the spec: pause suspends feeding (section 4.1). -/
def pause (p : HttpParser) : HttpParser := HttpParser.mk p.kind p.head_request true p.core

/-- Modelled from the spec: resume lifts a pause (section 4.1). -/
def resume (p : HttpParser) : HttpParser := HttpParser.mk p.kind p.head_request false p.core

/-- Sequential feeding of a list of fragments, concatenating the per-call
callback sequences and summing the consumed counts. -/
def feedAll (p : HttpParser) : List (List Nat) → RunOut
  | [] => RunOut.mk p [] 0
  | f :: rest =>
    let r := feed p f
    let r2 := feedAll r.fin rest
    RunOut.mk r2.fin (r.events ++ r2.events) (r.count + r2.count)

/-- Concatenation of fragments. -/
def catFrags : List (List Nat) → List Nat
  | [] => []
  | f :: rest => f ++ catFrags rest

/- ================= Part 5: run lemmas, claims C1 and C2 ================= -/

lemma step_error (p : HttpParser) (b : Nat) (e : ParseError)
    (h : p.core.state = PState.errorState e) : step p b = (p.core, []) := by
  simp [step, h]

lemma runBytes_error_stop (p : HttpParser) (bs : List Nat) (e : ParseError)
    (h : p.core.state = PState.errorState e) : runBytes p bs = RunOut.mk p [] 0 := by
  induction bs with
  | nil => rfl
  | cons b rest ih =>
    have hq : HttpParser.mk p.kind p.head_request p.paused p.core = p := rfl
    simp [runBytes, step_error p b e h, hq, ih, isErrorState, h]

lemma runBytes_fields (p : HttpParser) (bs : List Nat) :
    (runBytes p bs).fin.paused = p.paused ∧ (runBytes p bs).fin.kind = p.kind ∧
    (runBytes p bs).fin.head_request = p.head_request := by
  induction bs generalizing p with
  | nil => exact ⟨rfl, rfl, rfl⟩
  | cons b rest ih =>
    simpa [runBytes] using ih (HttpParser.mk p.kind p.head_request p.paused (step p b).1)

lemma runBytes_append (p : HttpParser) (a b2 : List Nat) :
    runBytes p (a ++ b2) =
      RunOut.mk (runBytes (runBytes p a).fin b2).fin
        ((runBytes p a).events ++ (runBytes (runBytes p a).fin b2).events)
        ((runBytes p a).count + (runBytes (runBytes p a).fin b2).count) := by
  induction a generalizing p with
  | nil => simp [runBytes]
  | cons x rest ih =>
    simp [runBytes, ih, List.append_assoc, Nat.add_assoc]

lemma feed_paused (p : HttpParser) (bs : List Nat) (h : p.paused = true) :
    feed p bs = FeedResult.mk p 0 [] (some ParseError.pausedError) := by
  simp [feed, h]

lemma feed_not_paused (p : HttpParser) (bs : List Nat) (h : p.paused = false) :
    feed p bs = FeedResult.mk (runBytes p bs).fin (runBytes p bs).count
      (mergeBodies (runBytes p bs).events) (errOf (runBytes p bs).fin.core.state) := by
  simp [feed, h]

lemma feedAll_paused (p : HttpParser) (frags : List (List Nat)) (h : p.paused = true) :
    feedAll p frags = RunOut.mk p [] 0 := by
  induction frags with
  | nil => rfl
  | cons f rest ih => simp [feedAll, feed_paused p f h, ih]

/-- C1 as stated is refuted: splitting a request whose body crosses the
fragment boundary changes the on_body payload boundaries, so the callback
sequence of the fragmented run differs from the single-call run. -/
theorem c1_fragmentation_counterexample :
    (feedAll newRequest
        [strBytes ("POST / HTTP/1.1\r\nContent-Length: 2\r\n\r\nA"), strBytes ("B")]).events ≠
      (feed newRequest (strBytes ("POST / HTTP/1.1\r\nContent-Length: 2\r\n\r\nAB"))).events := by
  decide

/-- C1 amended: for every parser state and every way of splitting a byte
stream into fragments fed sequentially, the run is identical to feeding the
whole stream in one call up to coalescing adjacent on_body invocations: the
merged callback sequences coincide, and the final parser and the total
consumed count are identical. -/
theorem c1_fragmentation_invariance_amended (p : HttpParser) (frags : List (List Nat)) :
    mergeBodies (feedAll p frags).events = (feed p (catFrags frags)).events ∧
    (feedAll p frags).fin = (feed p (catFrags frags)).fin ∧
    (feedAll p frags).count = (feed p (catFrags frags)).count := by
  induction frags generalizing p with
  | nil =>
    cases hp : p.paused <;>
      simp [feedAll, feed, hp, runBytes, mergeBodies, catFrags, errOf]
  | cons f rest ih =>
    cases hp : p.paused
    · have h1 : feed p f = FeedResult.mk (runBytes p f).fin (runBytes p f).count
          (mergeBodies (runBytes p f).events) (errOf (runBytes p f).fin.core.state) :=
        feed_not_paused p f hp
      have hpf : (runBytes p f).fin.paused = false := by
        rw [(runBytes_fields p f).1, hp]
      have ihx := ih (runBytes p f).fin
      have hfx : feed (runBytes p f).fin (catFrags rest) =
          FeedResult.mk (runBytes (runBytes p f).fin (catFrags rest)).fin
            (runBytes (runBytes p f).fin (catFrags rest)).count
            (mergeBodies (runBytes (runBytes p f).fin (catFrags rest)).events)
            (errOf (runBytes (runBytes p f).fin (catFrags rest)).fin.core.state) :=
        feed_not_paused (runBytes p f).fin (catFrags rest) hpf
      have hwhole : feed p (catFrags (f :: rest)) =
          FeedResult.mk (runBytes p (f ++ catFrags rest)).fin
            (runBytes p (f ++ catFrags rest)).count
            (mergeBodies (runBytes p (f ++ catFrags rest)).events)
            (errOf (runBytes p (f ++ catFrags rest)).fin.core.state) :=
        feed_not_paused p (catFrags (f :: rest)) hp
      have happ := runBytes_append p f (catFrags rest)
      refine ⟨?_, ?_, ?_⟩
      · show mergeBodies ((feed p f).events ++ (feedAll (feed p f).fin rest).events) = _
        rw [h1, hwhole]
        show mergeBodies (mergeBodies (runBytes p f).events ++
            (feedAll (runBytes p f).fin rest).events) = _
        rw [(mergeBodies_merge_right (mergeBodies (runBytes p f).events)
              ((feedAll (runBytes p f).fin rest).events)).symm]
        rw [ihx.1, hfx]
        rw [mergeBodies_merge_right, mergeBodies_merge_left, happ]
      · show (feedAll (feed p f).fin rest).fin = _
        rw [h1, hwhole]
        show (feedAll (runBytes p f).fin rest).fin = _
        rw [ihx.2.1, hfx, happ]
      · show (feed p f).count + (feedAll (feed p f).fin rest).count = _
        rw [h1, hwhole]
        show (runBytes p f).count + (feedAll (runBytes p f).fin rest).count = _
        rw [ihx.2.2, hfx, happ]
    · have h1 := feed_paused p f hp
      have h2 := feedAll_paused p rest hp
      have h3 := feed_paused p (catFrags (f :: rest)) hp
      simp [feedAll, h1, h2, h3, mergeBodies]

/-- C2: the error state is terminal: with any error kind stored, feed
consumes nothing, emits nothing, reports the stored error and leaves the
parser untouched, until reset, which returns the parser to the start line. -/
theorem c2_error_state_terminal (p : HttpParser) (bs : List Nat) (e : ParseError)
    (hs : p.core.state = PState.errorState e) (hp : p.paused = false) :
    feed p bs = FeedResult.mk p 0 [] (some e) ∧
    (reset p).core.state = PState.startLine := by
  constructor
  · rw [feed_not_paused p bs hp, runBytes_error_stop p bs e hs]
    simp [errOf, hs, mergeBodies]
  · rfl

/-- Witness for C2 at a concrete parser stuck in an error state. -/
theorem c2_error_state_terminal_witness :
    feed (HttpParser.mk ParserKind.request false false
        (PCore.mk (PState.errorState ParseError.invalidStartLine) {} {}))
        (strBytes ("GET / HTTP/1.1\r\n\r\n")) =
      FeedResult.mk (HttpParser.mk ParserKind.request false false
        (PCore.mk (PState.errorState ParseError.invalidStartLine) {} {}))
        0 [] (some ParseError.invalidStartLine) ∧
    (reset (HttpParser.mk ParserKind.request false false
        (PCore.mk (PState.errorState ParseError.invalidStartLine) {} {}))).core.state =
      PState.startLine :=
  c2_error_state_terminal
    (HttpParser.mk ParserKind.request false false
      (PCore.mk (PState.errorState ParseError.invalidStartLine) {} {}))
    (strBytes ("GET / HTTP/1.1\r\n\r\n")) ParseError.invalidStartLine rfl rfl

/- ======================= Part 6: claim C3 ======================= -/

lemma runBytes_cons (p : HttpParser) (b : Nat) (rest : List Nat) :
    runBytes p (b :: rest) =
      RunOut.mk
        (runBytes (HttpParser.mk p.kind p.head_request p.paused (step p b).1) rest).fin
        ((step p b).2 ++
          (runBytes (HttpParser.mk p.kind p.head_request p.paused (step p b).1) rest).events)
        ((if isErrorState (step p b).1.state then 0 else 1) +
          (runBytes (HttpParser.mk p.kind p.head_request p.paused (step p b).1) rest).count) :=
  rfl

lemma exists_error_of_isError (s : PState) (h : isErrorState s = true) :
    ∃ e, s = PState.errorState e := by
  cases s <;> simp [isErrorState] at h ⊢

lemma errOf_none (s : PState) : errOf s = none ↔ isErrorState s = false := by
  cases s <;> simp [errOf, isErrorState]

lemma errOf_some (s : PState) (e : ParseError) :
    errOf s = some e ↔ s = PState.errorState e := by
  cases s <;> simp [errOf]

lemma runBytes_count_spec (bs : List Nat) :
    ∀ p : HttpParser, isErrorState p.core.state = false →
      (runBytes p bs).count ≤ bs.length ∧
      (isErrorState (runBytes p bs).fin.core.state = false →
        (runBytes p bs).count = bs.length) ∧
      (isErrorState (runBytes p bs).fin.core.state = true →
        (runBytes p bs).count < bs.length ∧
        isErrorState (runBytes p (bs.take (runBytes p bs).count)).fin.core.state = false ∧
        (runBytes p (bs.take (runBytes p bs).count)).count = (runBytes p bs).count ∧
        (runBytes p (bs.take ((runBytes p bs).count + 1))).fin = (runBytes p bs).fin) := by
  induction bs with
  | nil =>
    intro p hp
    refine ⟨Nat.le_refl 0, fun _ => rfl, fun h => absurd h (by simp [runBytes, hp])⟩
  | cons b rest ih =>
    intro p hp
    cases he : isErrorState (step p b).1.state
    · -- the byte is consumed and the machine is not in an error state afterwards
      obtain ⟨h1, h2, h3⟩ :=
        ih (HttpParser.mk p.kind p.head_request p.paused (step p b).1) he
      have hcount : (runBytes p (b :: rest)).count =
          (runBytes (HttpParser.mk p.kind p.head_request p.paused (step p b).1) rest).count
            + 1 := by
        rw [runBytes_cons, he]
        simp [Nat.add_comm]
      have hfin : (runBytes p (b :: rest)).fin =
          (runBytes (HttpParser.mk p.kind p.head_request p.paused (step p b).1) rest).fin := by
        rw [runBytes_cons]
      refine ⟨?_, ?_, ?_⟩
      · rw [hcount]
        simp only [List.length_cons]
        omega
      · intro hnone
        rw [hfin] at hnone
        rw [hcount, h2 hnone]
        simp
      · intro herr
        rw [hfin] at herr
        obtain ⟨ha, hb, hc, hd⟩ := h3 herr
        have htake : (b :: rest).take ((runBytes p (b :: rest)).count) =
            b :: rest.take
              ((runBytes (HttpParser.mk p.kind p.head_request p.paused (step p b).1)
                rest).count) := by
          rw [hcount]
          rfl
        have htake2 : (b :: rest).take ((runBytes p (b :: rest)).count + 1) =
            b :: rest.take
              ((runBytes (HttpParser.mk p.kind p.head_request p.paused (step p b).1)
                rest).count + 1) := by
          rw [hcount]
          rfl
        refine ⟨?_, ?_, ?_, ?_⟩
        · rw [hcount]
          simp only [List.length_cons]
          omega
        · rw [htake, runBytes_cons]
          exact hb
        · rw [htake, runBytes_cons, he, hcount, hc]
          simp [Nat.add_comm]
        · rw [htake2, runBytes_cons, hfin]
          exact hd
    · -- the faulting byte: the step enters the error state without consuming
      obtain ⟨e, hste⟩ := exists_error_of_isError _ he
      have hrq := runBytes_error_stop
        (HttpParser.mk p.kind p.head_request p.paused (step p b).1) rest e hste
      have hcount : (runBytes p (b :: rest)).count = 0 := by
        rw [runBytes_cons, hrq]
        simp [he]
      have hfin : (runBytes p (b :: rest)).fin =
          HttpParser.mk p.kind p.head_request p.paused (step p b).1 := by
        rw [runBytes_cons, hrq]
      refine ⟨?_, ?_, ?_⟩
      · rw [hcount]
        simp
      · intro hnone
        rw [hfin] at hnone
        rw [hste] at hnone
        exact absurd hnone (by simp [isErrorState])
      · intro _
        refine ⟨?_, ?_, ?_, ?_⟩
        · rw [hcount]
          simp
        · rw [hcount]
          simp [runBytes, hp]
        · rw [hcount]
          simp [runBytes]
        · rw [hcount, hfin]
          have h1b : (b :: rest).take (0 + 1) = [b] := by simp
          rw [h1b, runBytes_cons]
          rfl

/-- C3: for every non-paused parser not already in an error state and every
input, the consumed count of feed equals the number of bytes actually
interpreted: the whole input when no error is reported; and on an error the
count is the number of bytes consumed before the faulting byte, in that the
consumed prefix replays without error consuming all of itself, while the
prefix extended by one more byte reproduces exactly the reported error. -/
theorem c3_consumed_count (p : HttpParser) (bs : List Nat)
    (hp : p.paused = false) (he : isErrorState p.core.state = false) :
    (feed p bs).count ≤ bs.length ∧
    ((feed p bs).err = none → (feed p bs).count = bs.length) ∧
    (∀ e, (feed p bs).err = some e →
      (feed p bs).count < bs.length ∧
      (feed p (bs.take (feed p bs).count)).err = none ∧
      (feed p (bs.take (feed p bs).count)).count = (feed p bs).count ∧
      (feed p (bs.take ((feed p bs).count + 1))).err = some e) := by
  obtain ⟨h1, h2, h3⟩ := runBytes_count_spec bs p he
  refine ⟨?_, ?_, ?_⟩
  · rw [feed_not_paused p bs hp]
    exact h1
  · intro hnone
    rw [feed_not_paused p bs hp] at hnone ⊢
    exact h2 ((errOf_none _).mp hnone)
  · intro e herr
    rw [feed_not_paused p bs hp] at herr
    have hste : (runBytes p bs).fin.core.state = PState.errorState e :=
      (errOf_some _ _).mp herr
    have hErr : isErrorState (runBytes p bs).fin.core.state = true := by
      rw [hste]
      rfl
    obtain ⟨ha, hb, hc, hd⟩ := h3 hErr
    rw [feed_not_paused p bs hp]
    refine ⟨ha, ?_, ?_, ?_⟩
    · rw [feed_not_paused p _ hp]
      exact (errOf_none _).mpr hb
    · rw [feed_not_paused p _ hp]
      exact hc
    · rw [feed_not_paused p _ hp]
      show errOf (runBytes p (bs.take ((runBytes p bs).count + 1))).fin.core.state = some e
      rw [hd, hste]
      rfl

/-- Witness for C3: a complete request is consumed in full without error, and
for an input whose second line is malformed the consumed count stops exactly
before the faulting byte. -/
theorem c3_consumed_count_witness :
    (feed newRequest (strBytes ("GET / HTTP/1.1\r\n\r\n"))).count =
      (strBytes ("GET / HTTP/1.1\r\n\r\n")).length ∧
    (feed newRequest (strBytes ("GET / HTTP/1.1\r\n\rX"))).count <
      (strBytes ("GET / HTTP/1.1\r\n\rX")).length := by
  constructor
  · exact (c3_consumed_count newRequest (strBytes ("GET / HTTP/1.1\r\n\r\n")) rfl rfl).2.1
      (by decide)
  · exact ((c3_consumed_count newRequest (strBytes ("GET / HTTP/1.1\r\n\rX")) rfl rfl).2.2
      ParseError.invalidHeaderField (by decide)).1

/- ================= Part 7: claims C4, C5, C6 and C7 ================= -/

set_option maxRecDepth 40000 in
/-- C4: a request carrying both a Content-Length header and
Transfer-Encoding chunked fails with ConflictingBodyHeaders at header
recognition time, before any body byte is processed (no on_body event is
emitted), in either header order; and in general, recognizing a
Content-Length header while chunked is already set, or a chunked
Transfer-Encoding while a Content-Length is present, fails that way without
emitting anything. -/
theorem c4_conflicting_body_headers :
    (feed newRequest (strBytes
        ("POST / HTTP/1.1\r\nContent-Length: 5\r\nTransfer-Encoding: chunked\r\n\r\nhello"))).err
      = some ParseError.conflictingBodyHeaders ∧
    (feed newRequest (strBytes
        ("POST / HTTP/1.1\r\nContent-Length: 5\r\nTransfer-Encoding: chunked\r\n\r\nhello"))).events.all
        (fun ev => !(isBodyEvent ev)) = true ∧
    (feed newRequest (strBytes
        ("POST / HTTP/1.1\r\nTransfer-Encoding: chunked\r\nContent-Length: 5\r\n\r\nhello"))).err
      = some ParseError.conflictingBodyHeaders ∧
    (feed newRequest (strBytes
        ("POST / HTTP/1.1\r\nTransfer-Encoding: chunked\r\nContent-Length: 5\r\n\r\nhello"))).events.all
        (fun ev => !(isBodyEvent ev)) = true ∧
    (∀ (p : HttpParser) (v : List Nat), p.core.ctx.chunked = true →
      applyHeader p (strBytes ("Content-Length")) v =
        failCore p.core ParseError.conflictingBodyHeaders) ∧
    (∀ (p : HttpParser) (v : List Nat), p.core.ctx.content_length_present = true →
      lowerBytes (trimOWS v) = strBytes ("chunked") →
      applyHeader p (strBytes ("Transfer-Encoding")) v =
        failCore p.core ParseError.conflictingBodyHeaders) := by
  refine ⟨by decide, by decide, by decide, by decide, ?_, ?_⟩
  · intro p v hch
    have hl : lowerBytes (strBytes ("Content-Length")) = strBytes ("content-length") := by
      decide
    simp [applyHeader, hl, hch]
  · intro p v hcl hv
    have hl2 : lowerBytes (strBytes ("Transfer-Encoding")) = strBytes ("transfer-encoding") := by
      decide
    have hne : (strBytes ("transfer-encoding") = strBytes ("content-length")) = False :=
      eq_false (by decide)
    simp [applyHeader, hl2, hne, hv, hcl]

/-- Witness for C4 at concrete contexts with the conflicting flag set. -/
theorem c4_conflicting_body_headers_witness :
    applyHeader
        (HttpParser.mk ParserKind.request false false
          (PCore.mk PState.headerValue { chunked := true } {}))
        (strBytes ("Content-Length")) (strBytes ("5")) =
      failCore (PCore.mk PState.headerValue { chunked := true } {})
        ParseError.conflictingBodyHeaders ∧
    applyHeader
        (HttpParser.mk ParserKind.request false false
          (PCore.mk PState.headerValue { content_length_present := true } {}))
        (strBytes ("Transfer-Encoding")) (strBytes ("chunked")) =
      failCore (PCore.mk PState.headerValue { content_length_present := true } {})
        ParseError.conflictingBodyHeaders :=
  ⟨c4_conflicting_body_headers.2.2.2.2.1
      (HttpParser.mk ParserKind.request false false
        (PCore.mk PState.headerValue { chunked := true } {}))
      (strBytes ("5")) rfl,
   c4_conflicting_body_headers.2.2.2.2.2
      (HttpParser.mk ParserKind.request false false
        (PCore.mk PState.headerValue { content_length_present := true } {}))
      (strBytes ("chunked")) rfl (by decide)⟩

set_option maxRecDepth 40000 in
/-- C5: feeding the chunked body of the spec example after headers declaring
chunked encoding yields on_chunk_header once the size 4 is known, a single
on_body with payload Wiki, on_chunk_complete after the chunk CRLF, the
zero-chunk header, and on_message_complete, with the total consumed count
equal to the full input length and no error. -/
theorem c5_chunked_body :
    feed newRequest
        (strBytes ("POST / HTTP/1.1\r\nTransfer-Encoding: chunked\r\n\r\n4\r\nWiki\r\n0\r\n\r\n")) =
      FeedResult.mk newRequest
        (strBytes
          ("POST / HTTP/1.1\r\nTransfer-Encoding: chunked\r\n\r\n4\r\nWiki\r\n0\r\n\r\n")).length
        [Event.messageBegin, Event.method (strBytes ("POST")), Event.url (strBytes ("/")),
         Event.header (strBytes ("Transfer-Encoding")) (strBytes ("chunked")),
         Event.headersComplete, Event.chunkHeader 4, Event.body (strBytes ("Wiki")),
         Event.chunkComplete, Event.chunkHeader 0, Event.messageComplete]
        none := by
  decide

/-- C6: a Response parser for a reply to a HEAD request carrying
Content-Length 100 reaches message completion immediately after the headers
with zero on_body events, consuming the whole input; and in general, for a
Response parser outside trailers, a HEAD reply or a status of 1xx, 204 or 304
has no body regardless of headers: the transition at the end of headers
emits exactly on_headers_complete and on_message_complete and returns to the
start line. -/
theorem c6_head_response_no_body :
    feed (mkParser ParserKind.response true)
        (strBytes ("HTTP/1.1 200 OK\r\nContent-Length: 100\r\n\r\n")) =
      FeedResult.mk (mkParser ParserKind.response true)
        (strBytes ("HTTP/1.1 200 OK\r\nContent-Length: 100\r\n\r\n")).length
        [Event.messageBegin, Event.status (strBytes ("OK")),
         Event.header (strBytes ("Content-Length")) (strBytes ("100")),
         Event.headersComplete, Event.messageComplete] none ∧
    (∀ p : HttpParser, p.kind = ParserKind.response → p.core.ctx.trailing = false →
      (p.head_request = true ∨
        (100 ≤ p.core.ctx.status_code ∧ p.core.ctx.status_code ≤ 199) ∨
        p.core.ctx.status_code = 204 ∨ p.core.ctx.status_code = 304) →
      message_has_body p = false ∧
      headersDone p = (initCore, [Event.headersComplete, Event.messageComplete])) := by
  constructor
  · decide
  · intro p hk ht hcond
    have hbody : message_has_body p = false := by
      rcases hcond with h | ⟨ha2, hb2⟩ | h | h
      · simp [message_has_body, hk, h]
      · simp [message_has_body, hk, ha2, hb2]
      · simp [message_has_body, hk, h]
      · simp [message_has_body, hk, h]
    refine ⟨hbody, ?_⟩
    cases hu : p.core.ctx.upgrade <;> simp [headersDone, ht, hu, hbody]

/-- Witness for C6 at a concrete HEAD-reply parser at the end of headers. -/
theorem c6_head_response_no_body_witness :
    message_has_body
        (HttpParser.mk ParserKind.response true false (PCore.mk PState.headerField {} {})) =
      false ∧
    headersDone
        (HttpParser.mk ParserKind.response true false (PCore.mk PState.headerField {} {})) =
      (initCore, [Event.headersComplete, Event.messageComplete]) :=
  c6_head_response_no_body.2
    (HttpParser.mk ParserKind.response true false (PCore.mk PState.headerField {} {}))
    rfl rfl (Or.inl rfl)

lemma parsePort_bounds (ps : List Nat) (n : Nat) (h : parsePort ps = Except.ok n) :
    1 ≤ n ∧ n ≤ 65535 := by
  unfold parsePort at h
  split_ifs at h with h1 h2
  all_goals
    first
      | (rw [Except.ok.injEq] at h
         have h3 : 1 ≤ digitsVal ps ∧ digitsVal ps ≤ 65535 := by simpa using h2
         omega)
      | simp at h

lemma port_bind_ok (ps2 hs : List Nat) (hst : List Nat) (n : Nat)
    (h : (do
        let m ← parsePort ps2
        Except.ok (hs, some m)) = Except.ok (hst, some n)) :
    1 ≤ n ∧ n ≤ 65535 := by
  rcases hpp : parsePort ps2 with e3 | m <;> rw [hpp] at h
  · simp [Bind.bind, Except.bind] at h
  · simp only [Bind.bind, Except.bind, Except.ok.injEq, Prod.mk.injEq,
      Option.some.injEq] at h
    rcases h with ⟨h4, hmn⟩
    rw [hmn] at hpp
    exact parsePort_bounds _ n hpp

lemma parseAuthority_port_bounds (a hst : List Nat) (n : Nat)
    (h : parseAuthority a = Except.ok (hst, some n)) : 1 ≤ n ∧ n ≤ 65535 := by
  simp only [parseAuthority] at h
  split_ifs at h with hbr
  · rcases hsp : (splitFirst 93 (afterLastAt a).tail).2 with _ | tail2 <;>
      simp only [hsp] at h
    · simp at h
    · split_ifs at h with he1 he2
      all_goals
        first
          | exact port_bind_ok _ _ _ _ h
          | simp at h
  · rcases hsp : (splitFirst 58 (afterLastAt a)).2 with _ | ps2 <;>
      simp only [hsp] at h
    · simp at h
    · exact port_bind_ok _ _ _ _ h

lemma parse_url_port_bounds (l : List Nat) (c : UrlComponents)
    (h : parse_url l = Except.ok c) : ∀ n, c.port = some n → 1 ≤ n ∧ n ≤ 65535 := by
  intro n hp
  unfold parse_url at h
  split_ifs at h with h47
  · rw [Except.ok.injEq] at h
    rw [h.symm] at hp
    simp at hp
  · rcases hfs : findSchemeSep l with _ | ⟨s, r⟩ <;> simp only [hfs] at h
    · rcases hpa : parseAuthority
          (l.takeWhile (fun b => !(b == 47 || b == 63 || b == 35))) with e2 | hp2
      · rw [hpa] at h
        simp at h
      · rw [hpa] at h
        simp only [Except.ok.injEq] at h
        rcases hp2 with ⟨hst, popt⟩
        rw [h.symm] at hp
        simp only [] at hp
        rw [hp] at hpa
        exact parseAuthority_port_bounds _ hst n hpa
    · split_ifs at h with hsch
      · rcases hpa : parseAuthority
            (r.takeWhile (fun b => !(b == 47 || b == 63 || b == 35))) with e2 | hp2
        · rw [hpa] at h
          simp at h
        · rw [hpa] at h
          simp only [Except.ok.injEq] at h
          rcases hp2 with ⟨hst, popt⟩
          rw [h.symm] at hp
          simp only [] at hp
          rw [hp] at hpa
          exact parseAuthority_port_bounds _ hst n hpa
      · rcases hpa : parseAuthority
            (l.takeWhile (fun b => !(b == 47 || b == 63 || b == 35))) with e2 | hp2
        · rw [hpa] at h
          simp at h
        · rw [hpa] at h
          simp only [Except.ok.injEq] at h
          rcases hp2 with ⟨hst, popt⟩
          rw [h.symm] at hp
          simp only [] at hp
          rw [hp] at hpa
          exact parseAuthority_port_bounds _ hst n hpa

/-- C7: parse_url on the spec example returns scheme http, host host.com,
port 8080, path, query and fragment, with the userinfo discarded; ports that
are zero, out of range or non-numeric make parse_url fail with InvalidPort;
and every successfully parsed URL carries a port within 1 to 65535 when it
carries one at all. -/
theorem c7_parse_url :
    parse_url (strBytes ("http://u@host.com:8080/path?q=1#frag")) =
      Except.ok (UrlComponents.mk (strBytes ("http")) (strBytes ("host.com")) (some 8080)
        (strBytes ("/path")) (strBytes ("q=1")) (strBytes ("frag"))) ∧
    parse_url (strBytes ("http://host.com:0/")) = Except.error ParseError.invalidPort ∧
    parse_url (strBytes ("http://host.com:70000/")) = Except.error ParseError.invalidPort ∧
    parse_url (strBytes ("http://host.com:8a/")) = Except.error ParseError.invalidPort ∧
    (∀ (l : List Nat) (c : UrlComponents), parse_url l = Except.ok c →
      ∀ n, c.port = some n → 1 ≤ n ∧ n ≤ 65535) :=
  ⟨by decide, by decide, by decide, by decide, parse_url_port_bounds⟩

/-- Witness for C7: the universal port-soundness part applied to the parsed
spec example. -/
theorem c7_parse_url_witness : 1 ≤ 8080 ∧ 8080 ≤ 65535 :=
  c7_parse_url.2.2.2.2 (strBytes ("http://u@host.com:8080/path?q=1#frag"))
    (UrlComponents.mk (strBytes ("http")) (strBytes ("host.com")) (some 8080)
      (strBytes ("/path")) (strBytes ("q=1")) (strBytes ("frag")))
    c7_parse_url.1 8080 rfl
